import Mathlib

/-!
Verification development for the confucius_ai orchestration engine.

This file gives a shallow embedding of the core orchestration code
(`app/agents/master_agent.py`, the agent constructors, the Celery task
boundary and the WebSocket progress relay in `app/routers/ws.py`) and
proves or refutes the frozen specification claims about it.

Modelling conventions:
* Python dicts used as result maps are embedded as association lists
  (`List (String × _)`) with Python assignment/lookup semantics.
* The optional request side-context dict is embedded as a record of
  optional fields (the only keys the code reads: `text`, `images`,
  `urls`, `collections`); Python dict truthiness is "some key present".
* `async` step executors are embedded as functions returning
  `Except String _` (an exception is `Except.error msg`).
* Progress reporting (`report_activity`) is embedded as appending a
  structured event to a trace; the rendered message strings of the
  source are recovered by `Msg.render`.
* The float constant `confidence = 0.95`, displayed by the synthesizer
  as an integer percentage, is embedded as the integer percentage `95`.
-/

set_option maxRecDepth 4000
set_option linter.unusedVariables false

namespace Confucius

/-- Character-list version of "starts with". -/
def charsStartWith : List Char → List Char → Bool
  | [], _ => true
  | _ :: _, [] => false
  | p :: ps, c :: cs => p == c && charsStartWith ps cs

/-- Does `pat` occur as a contiguous run anywhere in the second list? -/
def charsContainFrom (pat : List Char) : List Char → Bool
  | [] => charsStartWith pat []
  | c :: cs => charsStartWith pat (c :: cs) || charsContainFrom pat cs

/-- Substring test: Python's `pat in s`. -/
def strContains (s pat : String) : Bool :=
  charsContainFrom pat.toList s.toList

/-- Python's `str.lower()` (the keyword alphabet of this code is ASCII). -/
def strLower (s : String) : String :=
  String.mk (s.data.map Char.toLower)

/-- Python's `str(bool)` rendering, used in f-strings. -/
def pyBool : Bool → String
  | true => "True"
  | false => "False"

/-- `ExecutionMode` enum from `app/models/agent.py`. -/
inductive ExecutionMode where
  | sequential
  | parallel
deriving Repr, DecidableEq

/-- The `.value` of the `ExecutionMode` enum member. -/
def ExecutionMode.value : ExecutionMode → String
  | .sequential => "sequential"
  | .parallel => "parallel"

/-- `PlanStep` model from `app/models/agent.py`. -/
structure PlanStep where
  id : Nat
  agent : String
  action : String
  depends_on : List Nat
  reasoning : String
deriving Repr, DecidableEq

/-- `ExecutionPlan` model from `app/models/agent.py`. -/
structure ExecutionPlan where
  steps : List PlanStep
  agents : List String
  execution_mode : ExecutionMode
  estimated_time : Nat
deriving Repr, DecidableEq

/-- The optional side-context dict of a request.  Fields are the keys the
code reads; `none` means the key is absent. -/
structure Ctx where
  text : Option String := none
  images : Option (List String) := none
  urls : Option (List String) := none
  collections : Option (List String) := none
deriving Repr, DecidableEq

/-- Python truthiness of the context dict: a dict is truthy iff it has at
least one key. -/
def Ctx.truthy (c : Ctx) : Bool :=
  c.text.isSome || c.images.isSome || c.urls.isSome || c.collections.isSome

/-- The analysis dict returned by `MasterAgent.analyze_request`. -/
structure Analysis where
  needs_ocr : Bool
  needs_info : Bool
  needs_rag : Bool
  complexity : Nat
  summary : String
deriving Repr, DecidableEq

/-- Keyword cues for the OCR step in `analyze_request`. -/
def ocrKeywords : List String := ["document", "text", "extract", "read", "scan"]

/-- Keyword cues for the Info step in `analyze_request`. -/
def infoKeywords : List String := ["search", "find", "information", "lookup", "research"]

/-- `MasterAgent.analyze_request` from `app/agents/master_agent.py`. -/
def analyze_request (query : String) (context : Option Ctx) : Analysis :=
  let query_lower := strLower query
  let context_text :=
    match context with
    | some c => if c.truthy then strLower (c.text.getD "") else ""
    | none => ""
  let needs_ocr := strContains context_text "text"
      || ocrKeywords.any (fun kw => strContains query_lower kw)
  let needs_info := infoKeywords.any (fun kw => strContains query_lower kw)
  let needs_rag := true
  let complexity := (if needs_ocr then 1 else 0) + (if needs_info then 1 else 0)
      + (if needs_rag then 1 else 0)
  { needs_ocr := needs_ocr
    needs_info := needs_info
    needs_rag := needs_rag
    complexity := complexity
    summary := "Request requires " ++ toString complexity ++ " agents. OCR: "
      ++ pyBool needs_ocr ++ ", Info: " ++ pyBool needs_info
      ++ ", RAG: " ++ pyBool needs_rag }

/-- `MasterAgent.create_execution_plan` from `app/agents/master_agent.py`.
`setOrder` models `list(set(agents))`: the iteration order of a Python
set of strings is an arbitrary function of the process-wide string
hashing, fixed for the lifetime of one interpreter process. -/
def create_execution_plan (setOrder : List String → List String)
    (analysis : Analysis) : ExecutionPlan :=
  let steps : List PlanStep := []
  let agents : List String := []
  let (steps, agents) :=
    if analysis.needs_ocr then
      (steps ++ [{ id := steps.length + 1
                   agent := "OCR Agent"
                   action := "Extract and analyze text from document"
                   depends_on := []
                   reasoning := "User request mentions document or text extraction" }],
       agents ++ ["OCR Agent"])
    else (steps, agents)
  let (steps, agents) :=
    if analysis.needs_info then
      (steps ++ [{ id := steps.length + 1
                   agent := "Info Agent"
                   action := "Search for relevant information"
                   depends_on := []
                   reasoning := "User request requires external information lookup" }],
       agents ++ ["Info Agent"])
    else (steps, agents)
  let (steps, agents) :=
    if analysis.needs_rag then
      (steps ++ [{ id := steps.length + 1
                   agent := "RAG Agent"
                   action := "Query knowledge base for context"
                   depends_on := if analysis.needs_ocr then [1] else []
                   reasoning := "Knowledge base consultation needed for comprehensive response" }],
       agents ++ ["RAG Agent"])
    else (steps, agents)
  { steps := steps
    agents := setOrder agents
    execution_mode :=
      if analysis.complexity > 1 then ExecutionMode.parallel else ExecutionMode.sequential
    estimated_time := steps.length * 1000 }

/-- Result dict returned by `OCRAgent.execute` (`app/agents/ocr_agent.py`).
`confidence` holds the integer percentage for the source's `0.95`. -/
structure OcrResult where
  text : String
  analysis : String
  confidence : Nat
  detected_type : String
  model : String
  execution_time : Nat
deriving Repr, DecidableEq

/-- Result dict returned by `InfoAgent.execute` (`app/agents/info_agent.py`). -/
structure InfoResult where
  query : String
  full_response : String
  result_count : Nat
  model : String
  execution_time : Nat
deriving Repr, DecidableEq

/-- Result dict returned by `RAGAgent.execute` (`app/agents/rag_agent.py`). -/
structure RagResult where
  response : String
  vector_results_count : Nat
  collections_searched : List String
  model : String
  embedding_model : String
  execution_time : Nat
deriving Repr, DecidableEq

/-- A value stored in the `results` dict of `execute_plan`. -/
inductive ResVal where
  | ocr (r : OcrResult)
  | info (r : InfoResult)
  | rag (r : RagResult)
deriving Repr, DecidableEq

/-- The `results` dict of `execute_plan`: an insertion-ordered map from
agent name to result, as a Python dict is. -/
abbrev ResultsMap := List (String × ResVal)

/-- Python dict lookup (`m[k]` / `k in m`). -/
def dlookup (m : ResultsMap) (k : String) : Option ResVal :=
  match m with
  | [] => none
  | (k', v) :: rest => if k' = k then some v else dlookup rest k

/-- Python dict assignment `m[k] = v`: overwrite in place if the key is
present, else append. -/
def dictSet (m : ResultsMap) (k : String) (v : ResVal) : ResultsMap :=
  if (dlookup m k).isSome then
    m.map (fun p => if p.1 = k then (k, v) else p)
  else m ++ [(k, v)]

/-- Python `results["OCR Agent"]["text"]`: reading the `"text"` key of a
stored result dict; a non-OCR result dict has no such key (KeyError). -/
def ResVal.textField : ResVal → Except String String
  | .ocr o => .ok o.text
  | .info _ => .error "KeyError: text"
  | .rag _ => .error "KeyError: text"

/-- The progress messages `execute_plan` passes to `report_activity`,
kept structured; `Msg.render` recovers the exact source f-strings. -/
inductive Msg where
  | startedParallel (agent action : String)
  | completedParallel (agent : String)
  | startedSequential (agent action : String)
  | completedSequential (agent : String)
  | startedDependent (agent action : String)
  | completedDependent (agent : String)
deriving Repr, DecidableEq

/-- The f-string each `Msg` constructor stands for. -/
def Msg.render : Msg → String
  | .startedParallel a act => "Starting parallel execution for " ++ a ++ ": " ++ act
  | .completedParallel a => "Completed parallel execution for " ++ a ++ "."
  | .startedSequential a act => "Starting sequential execution for " ++ a ++ ": " ++ act
  | .completedSequential a => "Completed sequential execution for " ++ a ++ "."
  | .startedDependent a act => "Starting dependent execution for " ++ a ++ ": " ++ act
  | .completedDependent a => "Completed dependent execution for " ++ a ++ "."

/-- Is this a "completed" progress message? -/
def Msg.isCompleted : Msg → Bool
  | .completedParallel _ => true
  | .completedSequential _ => true
  | .completedDependent _ => true
  | _ => false

/-- One published progress event: message plus the `is_error` flag of
`report_activity` (which `execute_plan` always leaves at its default
`False`). -/
structure Event where
  msg : Msg
  is_error : Bool
deriving Repr, DecidableEq

/-- The three sub-agents' `execute` coroutines, seen from
`execute_plan`: given query and context they either return a result
dict or raise. -/
structure Executors where
  ocr : String → Option Ctx → Except String OcrResult
  info : String → Option Ctx → Except String InfoResult
  rag : String → Option Ctx → Except String RagResult

/-- `independent_steps`: steps with a falsy (empty) `depends_on`. -/
def independentSteps (plan : ExecutionPlan) : List PlanStep :=
  plan.steps.filter (fun s => s.depends_on.isEmpty)

/-- `dependent_steps`: steps with a non-empty `depends_on`. -/
def dependentSteps (plan : ExecutionPlan) : List PlanStep :=
  plan.steps.filter (fun s => !s.depends_on.isEmpty)

/-- The `tasks` list built in the parallel branch: one named coroutine
per OCR/Info independent step; any other independent step (a ready RAG
step) contributes no task. -/
def parallelTasks (ex : Executors) (query : String) (context : Option Ctx)
    (steps : List PlanStep) : List (String × Except String ResVal) :=
  steps.filterMap (fun step =>
    if step.agent = "OCR Agent" then
      some ("OCR Agent", (ex.ocr query context).map ResVal.ocr)
    else if step.agent = "Info Agent" then
      some ("Info Agent", (ex.info query context).map ResVal.info)
    else none)

/-- `asyncio.gather` over the task list: all results, or the first
raised exception (taken in task order in this sequential embedding of
the concurrent wait). -/
def gatherAll : List (String × Except String ResVal) →
    Except String (List (String × ResVal))
  | [] => .ok []
  | (_, .error e) :: _ => .error e
  | (n, .ok v) :: rest => (gatherAll rest).map (fun l => (n, v) :: l)

/-- The loop after `gather`: store each parallel result and report its
"completed" event, in task order. -/
def recordParallel : List (String × ResVal) → ResultsMap → List Event →
    ResultsMap × List Event
  | [], res, evs => (res, evs)
  | (n, v) :: rest, res, evs =>
    recordParallel rest (dictSet res n v) (evs ++ [⟨.completedParallel n, false⟩])

/-- The sequential branch of `execute_plan`: run the ready steps one at
a time in plan order.  A ready step that is neither the OCR nor the
Info agent gets its started/completed events but no execution. -/
def runSequential (ex : Executors) (query : String) (context : Option Ctx) :
    List PlanStep → ResultsMap → List Event → List Event × Except String ResultsMap
  | [], res, evs => (evs, .ok res)
  | step :: rest, res, evs =>
    let evs := evs ++ [⟨.startedSequential step.agent step.action, false⟩]
    if step.agent = "OCR Agent" then
      match ex.ocr query context with
      | .error e => (evs, .error e)
      | .ok v =>
        runSequential ex query context rest (dictSet res "OCR Agent" (.ocr v))
          (evs ++ [⟨.completedSequential step.agent, false⟩])
    else if step.agent = "Info Agent" then
      match ex.info query context with
      | .error e => (evs, .error e)
      | .ok v =>
        runSequential ex query context rest (dictSet res "Info Agent" (.info v))
          (evs ++ [⟨.completedSequential step.agent, false⟩])
    else
      runSequential ex query context rest res
        (evs ++ [⟨.completedSequential step.agent, false⟩])

/-- Is the caller's context dict aliased by `rag_context = context or`
an empty dict?  Yes exactly when the caller's dict exists and is truthy. -/
def ctxAliased : Option Ctx → Bool
  | some c => c.truthy
  | none => false

/-- The dict bound to `rag_context` before the `"text"` assignment:
the caller's dict when truthy, else a fresh empty dict. -/
def ragBase : Option Ctx → Ctx
  | some c => if c.truthy then c else {}
  | none => {}

/-- `rag_context` after `rag_context["text"] = results["OCR Agent"]["text"]`. -/
def ragCtxWithText (ctx : Option Ctx) (t : String) : Ctx :=
  { ragBase ctx with text := some t }

/-- The dependent loop of `execute_plan`.  For a RAG step,
`rag_context = context or` an empty dict aliases the caller's context
whenever the caller's dict is truthy, so the `rag_context["text"]`
assignment writes through to it; the threaded `Option Ctx` is the
caller's dict state.  Only the RAG agent is executed here; any other
dependent step gets its events and nothing else. -/
def runDependents (ex : Executors) (query : String) :
    List PlanStep → Option Ctx → ResultsMap → List Event →
    List Event × Option Ctx × Except String ResultsMap
  | [], ctx, res, evs => (evs, ctx, .ok res)
  | step :: rest, ctx, res, evs =>
    let evs := evs ++ [⟨.startedDependent step.agent step.action, false⟩]
    if step.agent = "RAG Agent" then
      match dlookup res "OCR Agent" with
      | some v =>
        match v.textField with
        | .error e => (evs, ctx, .error e)
        | .ok t =>
          let ctx' := if ctxAliased ctx then some (ragCtxWithText ctx t) else ctx
          match ex.rag query (some (ragCtxWithText ctx t)) with
          | .error e => (evs, ctx', .error e)
          | .ok r =>
            runDependents ex query rest ctx' (dictSet res "RAG Agent" (.rag r))
              (evs ++ [⟨.completedDependent step.agent, false⟩])
      | none =>
        match ex.rag query (some (ragBase ctx)) with
        | .error e => (evs, ctx, .error e)
        | .ok r =>
          runDependents ex query rest ctx (dictSet res "RAG Agent" (.rag r))
            (evs ++ [⟨.completedDependent step.agent, false⟩])
    else
      runDependents ex query rest ctx res
        (evs ++ [⟨.completedDependent step.agent, false⟩])

/-- `MasterAgent.execute_plan` from `app/agents/master_agent.py`.
Returns the trace of progress events, the final state of the caller's
context dict, and either the results dict or the raised exception. -/
def execute_plan (ex : Executors) (plan : ExecutionPlan) (query : String)
    (context : Option Ctx) : List Event × Option Ctx × Except String ResultsMap :=
  let indep := independentSteps plan
  let deps := dependentSteps plan
  if plan.execution_mode = ExecutionMode.parallel ∧ indep.length > 1 then
    let startEvs := indep.map (fun s => ⟨Msg.startedParallel s.agent s.action, false⟩)
    match gatherAll (parallelTasks ex query context indep) with
    | .error e => (startEvs, context, .error e)
    | .ok pairs =>
      let (res, evs) := recordParallel pairs [] startEvs
      runDependents ex query deps context res evs
  else
    match runSequential ex query context indep [] [] with
    | (evs, .error e) => (evs, context, .error e)
    | (evs, .ok res) => runDependents ex query deps context res evs

deriving instance DecidableEq for Except

/-- The execution-summary header built by `MasterAgent.synthesize_results`;
`masterModel` is `self.agent_models["master"]`. -/
def execSummary (masterModel : String) (plan : ExecutionPlan) : String :=
  "=== MASTER AGENT SYNTHESIS ===\n\n"
  ++ "📋 EXECUTION SUMMARY:\n"
  ++ "- Master Model: " ++ masterModel ++ "\n"
  ++ "- Total Steps: " ++ toString plan.steps.length ++ "\n"
  ++ "- Agents Used: " ++ String.intercalate ", " plan.agents ++ "\n"
  ++ "- Execution Mode: " ++ plan.execution_mode.value ++ "\n\n"

/-- The OCR section of the synthesized report. -/
def ocrSection (o : OcrResult) : String :=
  "📄 OCR AGENT RESULTS:\n"
  ++ "- Model: " ++ o.model ++ "\n"
  ++ "- Document Type: " ++ o.detected_type ++ "\n"
  ++ "- Confidence: " ++ toString o.confidence ++ "%\n"
  ++ "- Analysis:\n" ++ o.analysis ++ "\n\n"

/-- The Info section of the synthesized report. -/
def infoSection (i : InfoResult) : String :=
  "🔍 INFO AGENT RESULTS:\n"
  ++ "- Model: " ++ i.model ++ "\n"
  ++ i.full_response ++ "\n\n"

/-- The RAG section of the synthesized report. -/
def ragSection (r : RagResult) : String :=
  "📚 RAG AGENT RESULTS:\n"
  ++ "- Model: " ++ r.model ++ "\n"
  ++ "- Embedding Model: " ++ r.embedding_model ++ "\n"
  ++ "- Vector Search Results: " ++ toString r.vector_results_count ++ "\n"
  ++ "- Collections Searched: " ++ String.intercalate ", " r.collections_searched ++ "\n"
  ++ "\nResponse:\n" ++ r.response ++ "\n\n"

/-- The closing statement of the synthesized report. -/
def conclusionText (plan : ExecutionPlan) : String :=
  "💡 CONCLUSION:\nAll " ++ toString plan.steps.length
  ++ " planned steps completed successfully.\n"

/-- `if "OCR Agent" in results:` block: append the OCR section.  A value
under that key that is not an OCR result dict lacks the fields the
section reads, which in Python raises a KeyError. -/
def appendOcr (results : ResultsMap) (output : String) : Except String String :=
  match dlookup results "OCR Agent" with
  | none => .ok output
  | some (.ocr o) => .ok (output ++ ocrSection o)
  | some _ => .error "KeyError"

/-- `if "Info Agent" in results:` block: append the Info section. -/
def appendInfo (results : ResultsMap) (output : String) : Except String String :=
  match dlookup results "Info Agent" with
  | none => .ok output
  | some (.info i) => .ok (output ++ infoSection i)
  | some _ => .error "KeyError"

/-- `if "RAG Agent" in results:` block: append the RAG section. -/
def appendRag (results : ResultsMap) (output : String) : Except String String :=
  match dlookup results "RAG Agent" with
  | none => .ok output
  | some (.rag r) => .ok (output ++ ragSection r)
  | some _ => .error "KeyError"

/-- `MasterAgent.synthesize_results` from `app/agents/master_agent.py`:
summary header, then the guarded per-agent sections in the order the
source checks them, then the conclusion.  The two bracketing
`report_activity` calls of the source do not contribute to the returned
string and are not modelled.  `query` is accepted and, as in the
source, unused. -/
def synthesize_results (masterModel : String) (results : ResultsMap)
    (plan : ExecutionPlan) (query : String) : Except String String := do
  let output := execSummary masterModel plan
  let output ← appendOcr results output
  let output ← appendInfo results output
  let output ← appendRag results output
  return output ++ conclusionText plan

/-- The spec's fixed section order: DocumentAnalysis (OCR), then
InformationLookup (Info), then KnowledgeRetrieval (RAG). -/
def specSectionText : ResVal → String
  | .ocr o => ocrSection o
  | .info i => infoSection i
  | .rag r => ragSection r

/-- Modelled from the spec's words: one labeled section per present
result kind, in the fixed order DocumentAnalysis, InformationLookup,
KnowledgeRetrieval, regardless of the map's insertion order. -/
def specOrderedSections (results : ResultsMap) : String :=
  (match dlookup results "OCR Agent" with | some v => specSectionText v | none => "")
  ++ (match dlookup results "Info Agent" with | some v => specSectionText v | none => "")
  ++ (match dlookup results "RAG Agent" with | some v => specSectionText v | none => "")

/-- A results map is well-keyed when each agent key holds that agent's
kind of result dict, as every map built by `execute_plan` does. -/
def wellKeyed (results : ResultsMap) : Prop :=
  (∀ v, dlookup results "OCR Agent" = some v → ∃ o, v = ResVal.ocr o)
  ∧ (∀ v, dlookup results "Info Agent" = some v → ∃ i, v = ResVal.info i)
  ∧ (∀ v, dlookup results "RAG Agent" = some v → ∃ r, v = ResVal.rag r)

/-- A Python function's parameter list (name, has-default), excluding
`self`. -/
abbrev PyParams := List (String × Bool)

/-- Does a Python call with `nPositional` positional arguments and the
named keyword arguments `kwargs` bind a function with parameters
`params` without raising a TypeError?  Every keyword must name a
parameter not already bound positionally, and every defaultless
parameter must be bound. -/
def pyCallOk (params : PyParams) (nPositional : Nat) (kwargs : List String) : Bool :=
  decide (nPositional ≤ params.length)
  && kwargs.all (fun k => ((params.drop nPositional).map Prod.fst).contains k)
  && ((params.drop nPositional).filter (fun p => !p.2)).all
      (fun p => kwargs.contains p.1)

/-- `OCRAgent.__init__(self, model, system_prompt, client_id=None)`
(`app/agents/ocr_agent.py`). -/
def ocrCtorParams : PyParams :=
  [("model", false), ("system_prompt", false), ("client_id", true)]

/-- `InfoAgent.__init__(self, model, system_prompt)`
(`app/agents/info_agent.py`): no `client_id` parameter. -/
def infoCtorParams : PyParams :=
  [("model", false), ("system_prompt", false)]

/-- `RAGAgent.__init__(self, model, embedding_model, system_prompt)`
(`app/agents/rag_agent.py`): no `client_id` parameter. -/
def ragCtorParams : PyParams :=
  [("model", false), ("embedding_model", false), ("system_prompt", false)]

/-- The constructor calls made by `MasterAgent.__init__`
(`app/agents/master_agent.py` lines 17-24), in order: each sub-agent is
constructed with its positional arguments plus the keyword argument
`client_id=client_id`, whatever the value of `client_id`. -/
def masterCtorBody (client_id : Option String) : Except String Unit := do
  if pyCallOk ocrCtorParams 2 ["client_id"] then pure ()
  else throw "TypeError: OCRAgent.__init__() got an unexpected keyword argument client_id"
  if pyCallOk infoCtorParams 2 ["client_id"] then pure ()
  else throw "TypeError: InfoAgent.__init__() got an unexpected keyword argument client_id"
  if pyCallOk ragCtorParams 3 ["client_id"] then pure ()
  else throw "TypeError: RAGAgent.__init__() got an unexpected keyword argument client_id"

/-- The names bound at module level in `app/agents/master_agent.py`:
its import statements and the class statement. -/
def masterModuleBindings : List String :=
  ["OCRAgent", "InfoAgent", "RAGAgent", "ExecutionPlan", "PlanStep",
   "ExecutionMode", "Dict", "Any", "List", "Optional", "asyncio", "time",
   "datetime", "MasterAgent"]

/-- The global names read by the body of `MasterAgent.report_activity`
(`app/agents/master_agent.py` lines 221-232). -/
def reportActivityGlobals : List String := ["datetime", "redis_service", "json"]

/-- Worker for `strSplit`. -/
def splitCharAux (sep : Char) : List Char → List Char → List String
  | [], acc => [String.mk acc.reverse]
  | c :: cs, acc =>
    if c == sep then String.mk acc.reverse :: splitCharAux sep cs []
    else splitCharAux sep cs (c :: acc)

/-- Python's `s.split(sep)` for a one-character separator. -/
def strSplit (s : String) (sep : Char) : List String :=
  splitCharAux sep s.data []

/-- Channel-name parsing of `ConnectionManager.run_pubsub_listener`
(`app/routers/ws.py`): `parts = channel.split(":")`; a message is
dispatched iff there are exactly two parts and the first is one of the
two subscribed namespaces; the client id is the second part. -/
def parseChannel (channel : String) : Option String :=
  match strSplit channel ':' with
  | [ns, cid] => if ns = "agent_results" ∨ ns = "agent_activity" then some cid else none
  | _ => none

/-- One record returned by
`pubsub.get_message(ignore_subscribe_messages=True, ...)`.  redis-py
tags messages arriving through a pattern subscription (`psubscribe`,
the only kind `ConnectionManager.startup` creates) with type
`"pmessage"`; only a plain `subscribe` yields type `"message"`. -/
structure PubSubMsg where
  type : String
  channel : String
  data : String
deriving Repr, DecidableEq

/-- The listener's `value.decode("utf-8")` calls.  The pubsub of
`ws.py` belongs to the async client built in `redis_service.connect`
with `decode_responses=True`, so `get_message` yields already-decoded
`str` values, and `str` has no `.decode` attribute: the call raises
AttributeError (which the listener's blanket `except` then swallows). -/
def pyStrDecode (s : String) : Except String String :=
  .error "AttributeError: str object has no attribute decode"

/-- The pub/sub listener loop of `ConnectionManager.run_pubsub_listener`
(`app/routers/ws.py` lines 66-92) over a finite incoming message
stream, with the registry (`active_connections`) held fixed.  Each
iteration forwards the payload to the parsed client's connection only
when the message passes the `message["type"] == "message"` guard and
both `.decode` calls succeed; an exception in the body is caught by the
loop's `except` and that message is dropped.  The output is the ordered
list of (client, payload) deliveries. -/
def runPubSub (registered : List String) : List PubSubMsg → List (String × String)
  | [] => []
  | m :: rest =>
    (if m.type = "message" then
      match pyStrDecode m.channel, pyStrDecode m.data with
      | .ok channel, .ok data =>
        match parseChannel channel with
        | some cid => if cid ∈ registered then [(cid, data)] else []
        | none => []
      | _, _ => []
    else []) ++ runPubSub registered rest

/-- The payloads published for a given client, in publish order: those
whose channel names that client. -/
def publishedFor (c : String) (msgs : List PubSubMsg) : List String :=
  msgs.filterMap (fun m => if parseChannel m.channel = some c then some m.data else none)

/-- The `depends_on` list of the step with a given id (empty when no
step has that id). -/
def stepDeps (plan : ExecutionPlan) (i : Nat) : List Nat :=
  match plan.steps.find? (fun s => s.id = i) with
  | some s => s.depends_on
  | none => []

/-- Fuelled reachability along the dependency relation: can `b` be
reached from `a` in one or more `depends_on` hops? -/
def depReach (plan : ExecutionPlan) : Nat → Nat → Nat → Bool
  | 0, _, _ => false
  | fuel + 1, a, b =>
    (stepDeps plan a).contains b
    || (stepDeps plan a).any (fun c => depReach plan fuel c b)

/-- The spec's cyclicity of the dependency relation: some step's id
reaches itself through `depends_on`. -/
def hasDepCycle (plan : ExecutionPlan) : Bool :=
  plan.steps.any (fun s => depReach plan (plan.steps.length + 1) s.id s.id)

/-! Concrete executor behaviours used to evaluate the model at specific
inputs. -/

/-- A fixed successful OCR result. -/
def okOcrRes : OcrResult :=
  { text := "EXTRACTED", analysis := "document analysis", confidence := 95,
    detected_type := "general document", model := "m-ocr", execution_time := 0 }

/-- A fixed successful Info result. -/
def okInfoRes : InfoResult :=
  { query := "q", full_response := "info response", result_count := 3,
    model := "m-info", execution_time := 0 }

/-- A fixed successful RAG result. -/
def okRagRes : RagResult :=
  { response := "rag response", vector_results_count := 0,
    collections_searched := ["default"], model := "m-rag",
    embedding_model := "m-emb", execution_time := 0 }

/-- Executors that always succeed. -/
def okExecutors : Executors :=
  { ocr := fun _ _ => .ok okOcrRes
    info := fun _ _ => .ok okInfoRes
    rag := fun _ _ => .ok okRagRes }

/-- Executors whose Info agent raises. -/
def failInfoExecutors : Executors :=
  { ocr := fun _ _ => .ok okOcrRes
    info := fun _ _ => .error "info agent failure"
    rag := fun _ _ => .ok okRagRes }

/-- C1: false on the code.  For the query `"hello"` (no keyword cues,
no context) the plan is exactly one KnowledgeRetrieval step with no
dependencies, yet `execute_plan` returns an empty results mapping —
the ready RAG step is reported started and completed but never
executed, because neither execution branch handles the RAG agent. -/
theorem c1_ready_rag_step_never_executed :
    ∀ (ex : Executors) (ord : List String → List String),
    (create_execution_plan ord (analyze_request "hello" none)).steps.map PlanStep.agent
        = ["RAG Agent"]
    ∧ (create_execution_plan ord (analyze_request "hello" none)).steps.map PlanStep.depends_on
        = [[]]
    ∧ (execute_plan ex (create_execution_plan ord (analyze_request "hello" none))
        "hello" none).2.2 = .ok []
    ∧ (execute_plan ex (create_execution_plan ord (analyze_request "hello" none))
        "hello" none).1 =
      [⟨.startedSequential "RAG Agent" "Query knowledge base for context", false⟩,
       ⟨.completedSequential "RAG Agent", false⟩] := by
  intro ex ord
  exact ⟨rfl, rfl, rfl, rfl⟩

/-- C2 counterexample: with an Info executor that raises, the query
`"search the web"` produces a two-ready-step Parallel plan whose
execution fails and propagates the exception, yet every progress event
published before the failure has `is_error = false` — no error-flagged
event is published by `execute_plan`. -/
theorem c2_counterexample :
    (execute_plan failInfoExecutors
        (create_execution_plan id (analyze_request "search the web" none))
        "search the web" none).2.2 = .error "info agent failure"
    ∧ ((execute_plan failInfoExecutors
        (create_execution_plan id (analyze_request "search the web" none))
        "search the web" none).1.all fun e => !e.is_error) = true
    ∧ (execute_plan failInfoExecutors
        (create_execution_plan id (analyze_request "search the web" none))
        "search the web" none).1 ≠ [] := by
  exact ⟨rfl, rfl, by decide⟩

/-- C3: true on the code.  `MasterAgent.__init__` passes
`client_id=client_id` to `InfoAgent` and `RAGAgent`, whose `__init__`
signatures have no such parameter, so constructing the orchestrator
raises a TypeError for every client identifier; moreover the names
`redis_service` and `json` read by `MasterAgent.report_activity` are
not bound at module level in `master_agent.py`. -/
theorem c3_master_ctor_type_error :
    ∀ c : String,
    masterCtorBody (some c) =
      .error "TypeError: InfoAgent.__init__() got an unexpected keyword argument client_id"
    ∧ "redis_service" ∉ masterModuleBindings
    ∧ "json" ∉ masterModuleBindings
    ∧ "redis_service" ∈ reportActivityGlobals
    ∧ "json" ∈ reportActivityGlobals := by
  intro c
  exact ⟨rfl, by decide, by decide, by decide, by decide⟩

/-- C4: `buildPlan ∘ analyze` is deterministic — two calls on the same
query and side-context, within one process (hence with the same
set-iteration order `ord` for `list(set(agents))`), produce identical
plans, the `agents` list order included. -/
theorem c4_plan_deterministic :
    ∀ (ord : List String → List String) (q₁ q₂ : String) (c₁ c₂ : Option Ctx),
    q₁ = q₂ → c₁ = c₂ →
    create_execution_plan ord (analyze_request q₁ c₁)
      = create_execution_plan ord (analyze_request q₂ c₂) := by
  intro ord q₁ q₂ c₁ c₂ hq hc
  rw [hq, hc]

/-- Witness for C4 at a concrete request. -/
theorem c4_plan_deterministic_witness :
    create_execution_plan id (analyze_request "analyze this document" none)
      = create_execution_plan id (analyze_request "analyze this document" none) :=
  c4_plan_deterministic id "analyze this document" "analyze this document"
    none none rfl rfl

/-- The context dict of the C6 scenario: a truthy dict with no
`"text"` key. -/
def ctxC6 : Ctx := { collections := some ["kb"] }

/-- C6: false on the code — a code bug.  For the query
`"read the document"` with a truthy context dict, `rag_context =
context or` an empty dict aliases the caller's dict, and the
`rag_context["text"]` assignment writes the OCR step's extracted text
into the submitted context: after `execute_plan` returns, the context
holds a `text` key it did not hold at submission. -/
theorem c6_submitted_context_mutated :
    (execute_plan okExecutors
        (create_execution_plan id (analyze_request "read the document" (some ctxC6)))
        "read the document" (some ctxC6)).2.1
      = some { ctxC6 with text := some "EXTRACTED" }
    ∧ (execute_plan okExecutors
        (create_execution_plan id (analyze_request "read the document" (some ctxC6)))
        "read the document" (some ctxC6)).2.1 ≠ some ctxC6 := by
  exact ⟨rfl, by decide⟩

/-- A plan whose dependency relation is a two-cycle. -/
def cyclicPlan : ExecutionPlan :=
  { steps :=
      [{ id := 1, agent := "OCR Agent",
         action := "Extract and analyze text from document",
         depends_on := [2],
         reasoning := "r" },
       { id := 2, agent := "RAG Agent",
         action := "Query knowledge base for context",
         depends_on := [1],
         reasoning := "r" }]
    agents := ["OCR Agent", "RAG Agent"]
    execution_mode := ExecutionMode.sequential
    estimated_time := 2000 }

/-- C8 counterexample: a plan with a cyclic `depends_on` relation is
not rejected — `execute_plan` runs to completion, executes the
dependent RAG step, and returns a non-empty results mapping. -/
theorem c8_counterexample :
    hasDepCycle cyclicPlan = true
    ∧ (execute_plan okExecutors cyclicPlan "q" none).2.2
        = .ok [("RAG Agent", .rag okRagRes)]
    ∧ (execute_plan okExecutors cyclicPlan "q" none).1 ≠ [] := by
  exact ⟨by decide, rfl, by decide⟩

/-- C5: every plan built from an analysis contains a KnowledgeRetrieval
(RAG) step, and that step's `depends_on` is exactly the
DocumentAnalysis (OCR) step's id when an OCR step is present, and empty
when no OCR step is present. -/
theorem c5_rag_dependency_iff_ocr_present :
    ∀ (ord : List String → List String) (q : String) (c : Option Ctx),
    ∃ s ∈ (create_execution_plan ord (analyze_request q c)).steps,
      s.agent = "RAG Agent"
      ∧ ((∃ t ∈ (create_execution_plan ord (analyze_request q c)).steps,
            t.agent = "OCR Agent" ∧ s.depends_on = [t.id])
         ∨ ((∀ t ∈ (create_execution_plan ord (analyze_request q c)).steps,
              t.agent ≠ "OCR Agent") ∧ s.depends_on = [])) := by
  intro ord q c
  have h3 : (analyze_request q c).needs_rag = true := rfl
  cases h1 : (analyze_request q c).needs_ocr <;>
    cases h2 : (analyze_request q c).needs_info <;>
    simp [create_execution_plan, h1, h2, h3]

/-! Helper lemmas about the results dict and the event traces. -/

/-! Helper lemmas about the results dict. -/

/-- Lookup after the overwrite branch of a Python dict assignment. -/
theorem dlookup_mapSet (k : String) (v : ResVal) :
    ∀ (m : ResultsMap) (k' : String),
    dlookup (m.map (fun p => if p.1 = k then (k, v) else p)) k'
      = if k' = k then ((dlookup m k).map fun _ => v) else dlookup m k' := by
  intro m
  induction m with
  | nil => intro k'; simp [dlookup]
  | cons p rest ih =>
    intro k'
    obtain ⟨k1, v1⟩ := p
    simp only [List.map_cons]
    by_cases hh : k1 = k
    · rw [if_pos (show (k1, v1).1 = k from hh)]
      by_cases hx : k' = k
      · simp [dlookup, hx, hh]
      · have h4 : ¬ k = k' := fun h => hx h.symm
        have h5 : ¬ k1 = k' := by rw [hh]; exact h4
        simp [dlookup, hx, h4, h5, ih]
    · rw [if_neg (show ¬ (k1, v1).1 = k from hh)]
      by_cases hy : k1 = k'
      · have hx : ¬ k' = k := fun h => hh (hy.trans h)
        simp [dlookup, hy, hx]
      · simp [dlookup, hy, hh, ih]

theorem dlookup_appendOne (k : String) (v : ResVal) :
    ∀ (m : ResultsMap) (k' : String),
    dlookup (m ++ [(k, v)]) k'
      = match dlookup m k' with
        | some w => some w
        | none => if k' = k then some v else none := by
  intro m
  induction m with
  | nil =>
    intro k'
    by_cases hk : k' = k
    · simp [dlookup, hk]
    · have hk2 : ¬ k = k' := fun h => hk h.symm
      simp [dlookup, hk, hk2]
  | cons p rest ih =>
    intro k'
    obtain ⟨k1, v1⟩ := p
    by_cases hk : k1 = k' <;> simp [dlookup, hk, ih]

theorem dlookup_dictSet (m : ResultsMap) (k : String) (v : ResVal) (k' : String) :
    dlookup (dictSet m k v) k' = if k' = k then some v else dlookup m k' := by
  unfold dictSet
  split
  case isTrue hs =>
    rw [dlookup_mapSet]
    obtain ⟨w, hw⟩ := Option.isSome_iff_exists.mp hs
    rw [hw]
    rfl
  case isFalse hs =>
    rw [dlookup_appendOne]
    rw [Option.not_isSome_iff_eq_none] at hs
    by_cases hk : k' = k
    · subst hk
      rw [hs]
    · cases hx : dlookup m k' <;> simp [hk]

theorem runSequential_trace (ex : Executors) (q : String) (c : Option Ctx) :
    ∀ (steps : List PlanStep) (res : ResultsMap) (evs : List Event),
    ∃ tail, (runSequential ex q c steps res evs).1 = evs ++ tail
      ∧ ∀ e ∈ tail, e.is_error = false := by
  intro steps
  induction steps with
  | nil =>
    intro res evs
    exact ⟨[], by simp [runSequential], by simp⟩
  | cons s rest ih =>
    intro res evs
    simp only [runSequential]
    by_cases h1 : s.agent = "OCR Agent"
    · rw [if_pos h1]
      cases hx : ex.ocr q c with
      | error err =>
        refine ⟨[⟨.startedSequential s.agent s.action, false⟩], rfl, ?_⟩
        intro e he; simp at he; subst he; rfl
      | ok v =>
        obtain ⟨tail, ht, hne⟩ := ih (dictSet res "OCR Agent" (.ocr v))
          (evs ++ [⟨.startedSequential s.agent s.action, false⟩]
             ++ [⟨.completedSequential s.agent, false⟩])
        refine ⟨[⟨.startedSequential s.agent s.action, false⟩,
                 ⟨.completedSequential s.agent, false⟩] ++ tail, ?_, ?_⟩
        · rw [ht]; simp
        · intro e he
          rcases List.mem_append.mp he with h2 | h2
          · simp at h2
            rcases h2 with h2 | h2 <;> (subst h2; rfl)
          · exact hne e h2
    · rw [if_neg h1]
      by_cases h2 : s.agent = "Info Agent"
      · rw [if_pos h2]
        cases hx : ex.info q c with
        | error err =>
          refine ⟨[⟨.startedSequential s.agent s.action, false⟩], rfl, ?_⟩
          intro e he; simp at he; subst he; rfl
        | ok v =>
          obtain ⟨tail, ht, hne⟩ := ih (dictSet res "Info Agent" (.info v))
            (evs ++ [⟨.startedSequential s.agent s.action, false⟩]
               ++ [⟨.completedSequential s.agent, false⟩])
          refine ⟨[⟨.startedSequential s.agent s.action, false⟩,
                   ⟨.completedSequential s.agent, false⟩] ++ tail, ?_, ?_⟩
          · rw [ht]; simp
          · intro e he
            rcases List.mem_append.mp he with h3 | h3
            · simp at h3
              rcases h3 with h3 | h3 <;> (subst h3; rfl)
            · exact hne e h3
      · rw [if_neg h2]
        obtain ⟨tail, ht, hne⟩ := ih res
          (evs ++ [⟨.startedSequential s.agent s.action, false⟩]
             ++ [⟨.completedSequential s.agent, false⟩])
        refine ⟨[⟨.startedSequential s.agent s.action, false⟩,
                 ⟨.completedSequential s.agent, false⟩] ++ tail, ?_, ?_⟩
        · rw [ht]; simp
        · intro e he
          rcases List.mem_append.mp he with h3 | h3
          · simp at h3
            rcases h3 with h3 | h3 <;> (subst h3; rfl)
          · exact hne e h3

theorem runDependents_trace (ex : Executors) (q : String) :
    ∀ (steps : List PlanStep) (ctx : Option Ctx) (res : ResultsMap) (evs : List Event),
    ∃ tail, (runDependents ex q steps ctx res evs).1 = evs ++ tail
      ∧ ∀ e ∈ tail, e.is_error = false := by
  intro steps
  induction steps with
  | nil =>
    intro ctx res evs
    exact ⟨[], by simp [runDependents], by simp⟩
  | cons s rest ih =>
    intro ctx res evs
    simp only [runDependents]
    by_cases h1 : s.agent = "RAG Agent"
    · rw [if_pos h1]
      split
      · split
        · refine ⟨[⟨.startedDependent s.agent s.action, false⟩], rfl, ?_⟩
          intro e he; simp at he; subst he; rfl
        · split
          · refine ⟨[⟨.startedDependent s.agent s.action, false⟩], rfl, ?_⟩
            intro e he; simp at he; subst he; rfl
          · obtain ⟨tail, ht, hne⟩ := ih _ _
              (evs ++ [⟨.startedDependent s.agent s.action, false⟩]
                 ++ [⟨.completedDependent s.agent, false⟩])
            refine ⟨[⟨.startedDependent s.agent s.action, false⟩,
                     ⟨.completedDependent s.agent, false⟩] ++ tail, ?_, ?_⟩
            · rw [ht]; simp
            · intro e he
              rcases List.mem_append.mp he with h3 | h3
              · simp at h3
                rcases h3 with h3 | h3 <;> (subst h3; rfl)
              · exact hne e h3
      · split
        · refine ⟨[⟨.startedDependent s.agent s.action, false⟩], rfl, ?_⟩
          intro e he; simp at he; subst he; rfl
        · obtain ⟨tail, ht, hne⟩ := ih _ _
            (evs ++ [⟨.startedDependent s.agent s.action, false⟩]
               ++ [⟨.completedDependent s.agent, false⟩])
          refine ⟨[⟨.startedDependent s.agent s.action, false⟩,
                   ⟨.completedDependent s.agent, false⟩] ++ tail, ?_, ?_⟩
          · rw [ht]; simp
          · intro e he
            rcases List.mem_append.mp he with h3 | h3
            · simp at h3
              rcases h3 with h3 | h3 <;> (subst h3; rfl)
            · exact hne e h3
    · rw [if_neg h1]
      obtain ⟨tail, ht, hne⟩ := ih ctx res
        (evs ++ [⟨.startedDependent s.agent s.action, false⟩]
           ++ [⟨.completedDependent s.agent, false⟩])
      refine ⟨[⟨.startedDependent s.agent s.action, false⟩,
               ⟨.completedDependent s.agent, false⟩] ++ tail, ?_, ?_⟩
      · rw [ht]; simp
      · intro e he
        rcases List.mem_append.mp he with h3 | h3
        · simp at h3
          rcases h3 with h3 | h3 <;> (subst h3; rfl)
        · exact hne e h3

theorem recordParallel_trace :
    ∀ (pairs : List (String × ResVal)) (res : ResultsMap) (evs : List Event),
    ∃ tail, (recordParallel pairs res evs).2 = evs ++ tail
      ∧ ∀ e ∈ tail, e.is_error = false := by
  intro pairs
  induction pairs with
  | nil =>
    intro res evs
    exact ⟨[], by simp [recordParallel], by simp⟩
  | cons p rest ih =>
    intro res evs
    obtain ⟨n, v⟩ := p
    simp only [recordParallel]
    obtain ⟨tail, ht, hne⟩ := ih (dictSet res n v)
      (evs ++ [⟨.completedParallel n, false⟩])
    refine ⟨⟨.completedParallel n, false⟩ :: tail, ?_, ?_⟩
    · rw [ht]; simp
    · intro e he
      rcases List.mem_cons.mp he with h2 | h2
      · subst h2; rfl
      · exact hne e h2

/-- C2 (amended): when a step execution raises, `execute_plan` lets the
exception propagate with no results mapping, but it never publishes an
error-flagged ProgressEvent: every event it reports, on every path,
carries `is_error = false` (the FAILURE notice is published only later,
at the task boundary, as a result message, not by `run`). -/
theorem c2_failure_propagates_without_error_event :
    ∀ (ex : Executors) (plan : ExecutionPlan) (q : String) (c : Option Ctx),
    ((execute_plan ex plan q c).1.all fun e => !e.is_error) = true := by
  intro ex plan q c
  rw [List.all_eq_true]
  simp only [execute_plan]
  split
  · split
    · intro e he
      simp only [List.mem_map] at he
      obtain ⟨s, _, hs⟩ := he
      subst hs
      rfl
    · next pairs heq =>
        intro e he
        obtain ⟨tail2, ht2, hn2⟩ := runDependents_trace ex q (dependentSteps plan) c
          (recordParallel pairs []
            ((independentSteps plan).map
              (fun s => ⟨Msg.startedParallel s.agent s.action, false⟩))).1
          (recordParallel pairs []
            ((independentSteps plan).map
              (fun s => ⟨Msg.startedParallel s.agent s.action, false⟩))).2
        rw [ht2] at he
        rcases List.mem_append.mp he with h2 | h2
        · obtain ⟨tail1, ht1, hn1⟩ := recordParallel_trace pairs []
            ((independentSteps plan).map
              (fun s => ⟨Msg.startedParallel s.agent s.action, false⟩))
          rw [ht1] at h2
          rcases List.mem_append.mp h2 with h3 | h3
          · simp only [List.mem_map] at h3
            obtain ⟨s, _, hs⟩ := h3
            subst hs
            rfl
          · simp [hn1 e h3]
        · simp [hn2 e h2]
  · split
    next evs err heq =>
      intro e he
      obtain ⟨tail1, ht1, hn1⟩ := runSequential_trace ex q c (independentSteps plan) [] []
      rw [heq] at ht1
      simp only at ht1
      rw [ht1] at he
      simp at he
      simp [hn1 e he]
    next evs res heq =>
      intro e he
      obtain ⟨tail2, ht2, hn2⟩ := runDependents_trace ex q (dependentSteps plan) c res evs
      rw [ht2] at he
      rcases List.mem_append.mp he with h2 | h2
      · obtain ⟨tail1, ht1, hn1⟩ := runSequential_trace ex q c (independentSteps plan) [] []
        rw [heq] at ht1
        simp only at ht1
        rw [ht1] at h2
        simp at h2
        simp [hn1 e h2]
      · simp [hn2 e h2]

theorem execute_plan_parallel_trace :
    ∀ (ex : Executors) (plan : ExecutionPlan) (q : String) (c : Option Ctx),
    plan.execution_mode = ExecutionMode.parallel →
    1 < (independentSteps plan).length →
    ∃ post, (execute_plan ex plan q c).1
      = (independentSteps plan).map
          (fun s => ⟨Msg.startedParallel s.agent s.action, false⟩) ++ post := by
  intro ex plan q c hm hl
  simp only [execute_plan]
  rw [if_pos ⟨hm, hl⟩]
  split
  · exact ⟨[], (List.append_nil _).symm⟩
  · next pairs heq =>
      obtain ⟨tail1, ht1, _⟩ := recordParallel_trace pairs []
        ((independentSteps plan).map
          (fun s => ⟨Msg.startedParallel s.agent s.action, false⟩))
      obtain ⟨tail2, ht2, _⟩ := runDependents_trace ex q (dependentSteps plan) c
        (recordParallel pairs []
          ((independentSteps plan).map
            (fun s => ⟨Msg.startedParallel s.agent s.action, false⟩))).1
        (recordParallel pairs []
          ((independentSteps plan).map
            (fun s => ⟨Msg.startedParallel s.agent s.action, false⟩))).2
      refine ⟨tail1 ++ tail2, ?_⟩
      rw [ht2, ht1, List.append_assoc]

theorem one_lt_length_of_two_mem {α : Type} {l : List α} {a b : α}
    (ha : a ∈ l) (hb : b ∈ l) (hne : a ≠ b) : 1 < l.length := by
  induction l with
  | nil => cases ha
  | cons x xs ih =>
    rcases List.mem_cons.mp ha with h1 | h1
    · rcases List.mem_cons.mp hb with h2 | h2
      · exact absurd (h1.trans h2.symm) hne
      · have := List.length_pos_of_mem h2
        simp only [List.length_cons]
        omega
    · rcases List.mem_cons.mp hb with h2 | h2
      · have := List.length_pos_of_mem h1
        simp only [List.length_cons]
        omega
      · have := ih h1 h2
        simp only [List.length_cons]
        omega

def startedParallelEv (s : PlanStep) : Event :=
  ⟨.startedParallel s.agent s.action, false⟩

/-- C9: in a Parallel-mode plan holding both a ready DocumentAnalysis
(OCR) step and a ready InformationLookup (Info) step, the event trace of
`execute_plan` decomposes into a prefix containing both steps' "started"
events and holding no "completed" event at all, followed by the rest —
so both starts are published before either completion. -/
theorem c9_both_starts_before_any_completion :
    ∀ (ex : Executors) (q : String) (c : Option Ctx) (plan : ExecutionPlan)
      (sOcr sInfo : PlanStep),
    plan.execution_mode = ExecutionMode.parallel →
    sOcr ∈ plan.steps → sOcr.agent = "OCR Agent" → sOcr.depends_on = [] →
    sInfo ∈ plan.steps → sInfo.agent = "Info Agent" → sInfo.depends_on = [] →
    ∃ pre post, (execute_plan ex plan q c).1 = pre ++ post
      ∧ startedParallelEv sOcr ∈ pre
      ∧ startedParallelEv sInfo ∈ pre
      ∧ ∀ e ∈ pre, e.msg.isCompleted = false := by
  intro ex q c plan sOcr sInfo hm ho hoa hod hi hia hid
  have homem : sOcr ∈ independentSteps plan := by
    simp [independentSteps, List.mem_filter, ho, hod]
  have himem : sInfo ∈ independentSteps plan := by
    simp [independentSteps, List.mem_filter, hi, hid]
  have hne : sOcr ≠ sInfo := by
    intro h
    rw [h, hia] at hoa
    exact absurd hoa (by decide)
  have hl : 1 < (independentSteps plan).length :=
    one_lt_length_of_two_mem homem himem hne
  obtain ⟨post, hp⟩ := execute_plan_parallel_trace ex plan q c hm hl
  refine ⟨_, post, hp, ?_, ?_, ?_⟩
  · exact List.mem_map.mpr ⟨sOcr, homem, rfl⟩
  · exact List.mem_map.mpr ⟨sInfo, himem, rfl⟩
  · intro e he
    obtain ⟨s, _, hs⟩ := List.mem_map.mp he
    subst hs
    rfl

def planC9 : ExecutionPlan :=
  create_execution_plan id (analyze_request "read document and search info" none)

def stepOcrC9 : PlanStep :=
  { id := 1, agent := "OCR Agent",
    action := "Extract and analyze text from document", depends_on := [],
    reasoning := "User request mentions document or text extraction" }

def stepInfoC9 : PlanStep :=
  { id := 2, agent := "Info Agent",
    action := "Search for relevant information", depends_on := [],
    reasoning := "User request requires external information lookup" }

theorem c9_both_starts_before_any_completion_witness :
    planC9.execution_mode = ExecutionMode.parallel
    ∧ stepOcrC9 ∈ planC9.steps ∧ stepOcrC9.agent = "OCR Agent"
    ∧ stepOcrC9.depends_on = []
    ∧ stepInfoC9 ∈ planC9.steps ∧ stepInfoC9.agent = "Info Agent"
    ∧ stepInfoC9.depends_on = []
    ∧ ∃ pre post,
        (execute_plan okExecutors planC9 "read document and search info" none).1
          = pre ++ post
        ∧ startedParallelEv stepOcrC9 ∈ pre
        ∧ startedParallelEv stepInfoC9 ∈ pre
        ∧ ∀ e ∈ pre, e.msg.isCompleted = false :=
  ⟨by decide, by decide, by decide, by decide, by decide, by decide, by decide,
   c9_both_starts_before_any_completion okExecutors "read document and search info" none planC9 stepOcrC9 stepInfoC9
     (by decide) (by decide) (by decide) (by decide) (by decide) (by decide) (by decide)⟩


/-- Executors that never raise. -/
def Executors.total (ex : Executors) : Prop :=
  (∀ q c, ∃ r, ex.ocr q c = .ok r)
  ∧ (∀ q c, ∃ r, ex.info q c = .ok r)
  ∧ (∀ q c, ∃ r, ex.rag q c = .ok r)

/-- The key "OCR Agent" only ever stores OCR-shaped results. -/
def OcrShaped (m : ResultsMap) : Prop :=
  ∀ v, dlookup m "OCR Agent" = some v → ∃ o, v = ResVal.ocr o

theorem ocrShaped_nil : OcrShaped [] := by
  intro v hv
  simp [dlookup] at hv

theorem ocrShaped_dictSet_ocr (m : ResultsMap) (o : OcrResult) :
    OcrShaped (dictSet m "OCR Agent" (.ocr o)) := by
  intro v hv
  rw [dlookup_dictSet] at hv
  simp at hv
  exact ⟨o, hv.symm⟩

theorem ocrShaped_dictSet_other (m : ResultsMap) (k : String) (v : ResVal)
    (hk : ¬ "OCR Agent" = k) (h : OcrShaped m) : OcrShaped (dictSet m k v) := by
  intro w hw
  rw [dlookup_dictSet, if_neg hk] at hw
  exact h w hw

theorem runSequential_ok (ex : Executors) (q : String) (c : Option Ctx)
    (hex : ex.total) :
    ∀ (steps : List PlanStep) (res : ResultsMap) (evs : List Event),
    OcrShaped res →
    ∃ m, (runSequential ex q c steps res evs).2 = .ok m ∧ OcrShaped m := by
  intro steps
  induction steps with
  | nil =>
    intro res evs h
    exact ⟨res, rfl, h⟩
  | cons s rest ih =>
    intro res evs h
    simp only [runSequential]
    by_cases h1 : s.agent = "OCR Agent"
    · rw [if_pos h1]
      obtain ⟨r, hr⟩ := hex.1 q c
      rw [hr]
      exact ih _ _ (ocrShaped_dictSet_ocr res r)
    · rw [if_neg h1]
      by_cases h2 : s.agent = "Info Agent"
      · rw [if_pos h2]
        obtain ⟨r, hr⟩ := hex.2.1 q c
        rw [hr]
        exact ih _ _ (ocrShaped_dictSet_other res _ _ (by decide) h)
      · rw [if_neg h2]
        exact ih _ _ h

theorem parallelTasks_mem (ex : Executors) (q : String) (c : Option Ctx)
    (steps : List PlanStep) :
    ∀ p ∈ parallelTasks ex q c steps,
    (p.1 = "OCR Agent" ∧ p.2 = (ex.ocr q c).map ResVal.ocr)
    ∨ (p.1 = "Info Agent" ∧ p.2 = (ex.info q c).map ResVal.info) := by
  intro p hp
  obtain ⟨s, hs, hf⟩ := List.mem_filterMap.mp hp
  by_cases h1 : s.agent = "OCR Agent"
  · rw [if_pos h1] at hf
    left
    obtain rfl := Option.some.inj hf
    exact ⟨rfl, rfl⟩
  · rw [if_neg h1] at hf
    by_cases h2 : s.agent = "Info Agent"
    · rw [if_pos h2] at hf
      right
      obtain rfl := Option.some.inj hf
      exact ⟨rfl, rfl⟩
    · rw [if_neg h2] at hf
      cases hf

theorem gatherAll_ok :
    ∀ (ts : List (String × Except String ResVal)),
    (∀ p ∈ ts, ∃ v, p.2 = Except.ok v) →
    ∃ l, gatherAll ts = .ok l ∧ ∀ x ∈ l, (x.1, Except.ok x.2) ∈ ts := by
  intro ts
  induction ts with
  | nil => exact fun _ => ⟨[], rfl, by simp⟩
  | cons p rest ih =>
    intro h
    obtain ⟨n, e⟩ := p
    obtain ⟨v, hv⟩ := h (n, e) (List.mem_cons_self _ _)
    simp only at hv
    subst hv
    obtain ⟨l, hl, hmem⟩ := ih (fun p hp => h p (List.mem_cons_of_mem _ hp))
    refine ⟨(n, v) :: l, ?_, ?_⟩
    · simp [gatherAll, hl, Except.map]
    · intro x hx
      rcases List.mem_cons.mp hx with h2 | h2
      · subst h2
        exact List.mem_cons_self _ _
      · exact List.mem_cons_of_mem _ (hmem x h2)

theorem recordParallel_shaped :
    ∀ (pairs : List (String × ResVal)) (res : ResultsMap) (evs : List Event),
    OcrShaped res →
    (∀ x ∈ pairs, x.1 = "OCR Agent" → ∃ o, x.2 = ResVal.ocr o) →
    OcrShaped (recordParallel pairs res evs).1 := by
  intro pairs
  induction pairs with
  | nil => exact fun res evs h _ => h
  | cons x rest ih =>
    intro res evs h hshape
    obtain ⟨n, v⟩ := x
    simp only [recordParallel]
    by_cases hn : n = "OCR Agent"
    · subst hn
      obtain ⟨o, ho⟩ := hshape _ (List.mem_cons_self _ _) rfl
      simp only at ho
      subst ho
      exact ih _ _ (ocrShaped_dictSet_ocr res o)
        (fun x hx => hshape x (List.mem_cons_of_mem _ hx))
    · exact ih _ _ (ocrShaped_dictSet_other res _ _ (fun hh => hn hh.symm) h)
        (fun x hx => hshape x (List.mem_cons_of_mem _ hx))

theorem runDependents_ok (ex : Executors) (q : String) (hex : ex.total) :
    ∀ (steps : List PlanStep) (ctx : Option Ctx) (res : ResultsMap) (evs : List Event),
    OcrShaped res →
    ∃ m, (runDependents ex q steps ctx res evs).2.2 = .ok m := by
  intro steps
  induction steps with
  | nil =>
    intro ctx res evs h
    exact ⟨res, rfl⟩
  | cons s rest ih =>
    intro ctx res evs h
    simp only [runDependents]
    by_cases h1 : s.agent = "RAG Agent"
    · rw [if_pos h1]
      split
      next v heq =>
        obtain ⟨o, ho⟩ := h v heq
        subst ho
        split
        next t htf => simp [ResVal.textField] at htf
        next t htf =>
          obtain ⟨r, hr⟩ := hex.2.2 q (some (ragCtxWithText ctx t))
          rw [hr]
          exact ih _ _ _ (ocrShaped_dictSet_other res _ _ (by decide) h)
      next heq =>
        obtain ⟨r, hr⟩ := hex.2.2 q (some (ragBase ctx))
        rw [hr]
        exact ih _ _ _ (ocrShaped_dictSet_other res _ _ (by decide) h)
    · rw [if_neg h1]
      exact ih _ _ _ h

/-- C8 (amended): `execute_plan` performs no acyclicity validation and
never rejects a plan.  Whenever the step executors themselves succeed,
it returns a results mapping for every plan — including plans whose
`depends_on` relation is cyclic, which are simply executed according to
the empty/non-empty `depends_on` partition. -/
theorem c8_no_acyclicity_validation :
    ∀ (ex : Executors) (plan : ExecutionPlan) (q : String) (c : Option Ctx),
    ex.total →
    ∃ m, (execute_plan ex plan q c).2.2 = .ok m := by
  intro ex plan q c hex
  simp only [execute_plan]
  split
  · have htasks : ∀ p ∈ parallelTasks ex q c (independentSteps plan),
        ∃ v, p.2 = Except.ok v := by
      intro p hp
      rcases parallelTasks_mem ex q c (independentSteps plan) p hp with ⟨_, h2⟩ | ⟨_, h2⟩
      · obtain ⟨r, hr⟩ := hex.1 q c
        exact ⟨ResVal.ocr r, by rw [h2, hr]; rfl⟩
      · obtain ⟨r, hr⟩ := hex.2.1 q c
        exact ⟨ResVal.info r, by rw [h2, hr]; rfl⟩
    obtain ⟨l, hl, hmem⟩ := gatherAll_ok _ htasks
    split
    next err heq => rw [hl] at heq; cases heq
    next pairs heq =>
      rw [hl] at heq
      obtain rfl := Except.ok.inj heq
      refine runDependents_ok ex q hex _ c _ _ ?_
      refine recordParallel_shaped _ [] _ ocrShaped_nil ?_
      intro x hx hx1
      rcases parallelTasks_mem ex q c (independentSteps plan) _ (hmem x hx) with ⟨_, h2⟩ | ⟨h2, _⟩
      · obtain ⟨r, hr⟩ := hex.1 q c
        rw [hr] at h2
        simp only [Except.map] at h2
        exact ⟨r, Except.ok.inj h2⟩
      · rw [hx1] at h2
        exact absurd h2 (by decide)
  · split
    next evs err heq =>
      obtain ⟨m, hm, _⟩ := runSequential_ok ex q c hex (independentSteps plan) [] [] ocrShaped_nil
      rw [heq] at hm
      cases hm
    next evs res heq =>
      obtain ⟨m, hm, hsh⟩ := runSequential_ok ex q c hex (independentSteps plan) [] [] ocrShaped_nil
      rw [heq] at hm
      obtain rfl := Except.ok.inj hm
      exact runDependents_ok ex q hex _ c _ _ hsh


/-- C10: for every well-keyed results mapping, the synthesized report is
the execution summary, then the sections of the present result kinds in
the fixed order DocumentAnalysis, InformationLookup, KnowledgeRetrieval,
then the conclusion; and the report depends only on the mapping's
lookups, not on its insertion order. -/
theorem c10_fixed_section_order :
    ∀ (mm : String) (results : ResultsMap) (plan : ExecutionPlan) (q : String),
    wellKeyed results →
    synthesize_results mm results plan q
      = .ok (execSummary mm plan ++ specOrderedSections results ++ conclusionText plan)
    ∧ ∀ results' : ResultsMap,
        (∀ k, dlookup results' k = dlookup results k) →
        synthesize_results mm results' plan q = synthesize_results mm results plan q := by
  intro mm results plan q hw
  obtain ⟨h1, h2, h3⟩ := hw
  constructor
  · rcases ho : dlookup results "OCR Agent" with _ | v1 <;>
      rcases hi : dlookup results "Info Agent" with _ | v2 <;>
      rcases hr : dlookup results "RAG Agent" with _ | v3
    all_goals try obtain ⟨o1, rfl⟩ := h1 _ ho
    all_goals try obtain ⟨o2, rfl⟩ := h2 _ hi
    all_goals try obtain ⟨o3, rfl⟩ := h3 _ hr
    all_goals
      simp [synthesize_results, appendOcr, appendInfo, appendRag, ho, hi, hr,
        specOrderedSections, specSectionText, Bind.bind, Except.bind, pure, Except.pure,
        String.append_assoc, String.append_empty, String.empty_append]
  · intro results' hsame
    simp [synthesize_results, appendOcr, appendInfo, appendRag, hsame]

/-- C7: false on the code — a code bug.  The listener subscribes only
by pattern (`psubscribe` in `ConnectionManager.startup`), and pattern
messages carry type `"pmessage"`, so the guard
`message["type"] == "message"` at `ws.py` line 69 never matches and no
event is ever forwarded to any live connection: the claimed in-order
delivery never happens (and, vacuously, nothing of C2's is delivered to
C1).  Even a hypothetical plain-subscription message of type
`"message"` would be dropped, because `channel.decode("utf-8")` raises
AttributeError on the already-decoded `str` of the
`decode_responses=True` client and the loop's `except` swallows it. -/
theorem c7_listener_never_delivers :
    ∀ (registered : List String) (msgs : List PubSubMsg),
    (∀ m ∈ msgs, m.type = "pmessage") →
    runPubSub registered msgs = []
    ∧ ∀ m : PubSubMsg, m.type = "message" → runPubSub registered [m] = [] := by
  intro registered msgs h
  constructor
  · induction msgs with
    | nil => rfl
    | cons m rest ih =>
      have hm := h m (List.mem_cons_self _ _)
      have hrest := ih (fun x hx => h x (List.mem_cons_of_mem _ hx))
      simp [runPubSub, hm, hrest]
  · intro m hm
    simp [runPubSub, hm, pyStrDecode]

/-- A concrete pattern-subscription stream: two events for C1 and one
for C2, all carrying redis-py's "pmessage" type tag. -/
def msgsC7 : List PubSubMsg :=
  [{ type := "pmessage", channel := "agent_results:C1", data := "a" },
   { type := "pmessage", channel := "agent_activity:C2", data := "b" },
   { type := "pmessage", channel := "agent_results:C1", data := "c" }]

/-- Witness for C7 at a concrete registry and stream: events are
published for the registered client C1, yet the listener delivers
nothing at all. -/
theorem c7_listener_never_delivers_witness :
    (∀ m ∈ msgsC7, m.type = "pmessage")
    ∧ runPubSub ["C1"] msgsC7 = []
    ∧ publishedFor "C1" msgsC7 = ["a", "c"] :=
  ⟨by decide, (c7_listener_never_delivers ["C1"] msgsC7 (by decide)).1, by decide⟩

/-- Witness for the amended C8 at the concrete cyclic plan. -/
theorem c8_no_acyclicity_validation_witness :
    okExecutors.total
    ∧ ∃ m, (execute_plan okExecutors cyclicPlan "q" none).2.2 = .ok m := by
  have ht : okExecutors.total :=
    ⟨fun _ _ => ⟨okOcrRes, rfl⟩, fun _ _ => ⟨okInfoRes, rfl⟩,
     fun _ _ => ⟨okRagRes, rfl⟩⟩
  exact ⟨ht, c8_no_acyclicity_validation okExecutors cyclicPlan "q" none ht⟩

/-- A plan for the C10 witness. -/
def planC10 : ExecutionPlan :=
  create_execution_plan id (analyze_request "hello" none)

/-- A results mapping inserted in scrambled (RAG before OCR) order. -/
def resultsC10 : ResultsMap :=
  [("RAG Agent", .rag okRagRes), ("OCR Agent", .ocr okOcrRes)]

/-- Witness for C10 at a concrete scrambled-order results mapping. -/
theorem c10_fixed_section_order_witness :
    wellKeyed resultsC10
    ∧ synthesize_results "m-master" resultsC10 planC10 "hello"
        = .ok (execSummary "m-master" planC10 ++ specOrderedSections resultsC10
            ++ conclusionText planC10) := by
  have hw : wellKeyed resultsC10 := by
    refine ⟨?_, ?_, ?_⟩ <;> intro v hv <;> simp [resultsC10, dlookup] at hv
    · exact ⟨okOcrRes, hv.symm⟩
    · exact ⟨okRagRes, hv.symm⟩
  exact ⟨hw, (c10_fixed_section_order "m-master" resultsC10 planC10 "hello" hw).1⟩

end Confucius
